import Mathlib

set_option maxHeartbeats 1000000

/-!
Shallow embedding of the `mob-signalk-plugin` Signal K plugin.

The repository holds two variants of the MOB (man-overboard) plugin body:
the `index.js` MOB variant and the unnamed variant (`src/unnamed/part_000`).
They share the state shape (`mobNotification`, `onStop`, `track`,
`plugin.unsubscribes`) and the position-tracking logic, and differ in the
guard of the "normal" notification branch and in the track capacity
constant.  Both are embedded below, selected by `Variant`.

JavaScript values reaching the handlers are modelled by `JVal`; property
access and the `in` operator follow JavaScript semantics, including the
`TypeError` raised by `"state" in v` when `v` is not an object, modelled
by `Except Unit`.  Host-side effects (`app.handleMessage`, the
subscription manager) are modelled by explicit state: a log of published
messages and a registry of active subscription handles.
-/

namespace Mob

/-- A JavaScript value, as far as the plugin inspects one. -/
inductive JVal where
  | jundefined : JVal
  | jnull : JVal
  | jbool : Bool → JVal
  | jnum : Int → JVal
  | jstr : String → JVal
  | jobj : List (String × JVal) → JVal

/-- JavaScript truthiness, used by `!mobNotification` and `mobNotification &&`. -/
def truthy : JVal → Bool
  | .jundefined => false
  | .jnull => false
  | .jbool b => b
  | .jnum n => decide (n ≠ 0)
  | .jstr s => decide (s ≠ "")
  | .jobj _ => true

/-- First binding of a key in an object's field list. -/
def lookupField : List (String × JVal) → String → Option JVal
  | [], _ => none
  | (k, v) :: rest, key => if k = key then some v else lookupField rest key

/-- The JavaScript `key in v` operator: raises a `TypeError` unless `v` is an
object. -/
def hasProp (v : JVal) (key : String) : Except Unit Bool :=
  match v with
  | .jobj fs => .ok (lookupField fs key).isSome
  | _ => .error ()

/-- JavaScript member access `v.key`: raises a `TypeError` when `v` is `null`
or `undefined`; yields `undefined` for a missing field or access on another
primitive. -/
def getProp (v : JVal) (key : String) : Except Unit JVal :=
  match v with
  | .jobj fs => .ok ((lookupField fs key).getD .jundefined)
  | .jundefined => .error ()
  | .jnull => .error ()
  | _ => .ok .jundefined

/-- Strict equality `v === "s"` against a string literal. -/
def isStr : JVal → String → Bool
  | .jstr t, s => decide (t = s)
  | _, _ => false

/-- A sample of the track buffer: `{ position: vesselPosition, time: Date.now() }`. -/
structure TrackSample where
  position : JVal
  time : Int

/-- The throttle of the position handler:
`track.length === 0 || track[track.length - 1].time < Date.now() - 30 * 1000`. -/
def shouldRecord (track : List TrackSample) (now : Int) : Bool :=
  track.length == 0 ||
    (match track.getLast? with
     | some s => decide (s.time < now - 30 * 1000)
     | none => false)

/-- The append `track.push(s)` followed by `if (track.length > cap) track.shift()`. -/
def pushTrack (cap : Nat) (track : List TrackSample) (s : TrackSample) : List TrackSample :=
  let t2 := track ++ [s]
  if cap < t2.length then t2.tail else t2

/-- The track-recording step of the position delta handler. -/
def recordSample (cap : Nat) (track : List TrackSample) (pos : JVal) (now : Int) :
    List TrackSample :=
  if shouldRecord track now then pushTrack cap track ⟨pos, now⟩ else track

/-- Track capacity of the `index.js` variant: `12 * 120`. -/
def trackCapacityIndex : Nat := 12 * 120

/-- Track capacity of the unnamed variant: `12 * 60`. -/
def trackCapacityPart0 : Nat := 12 * 60

/-- Which subscription a handle belongs to. -/
inductive SubKind where
  | notif : SubKind
  | position : SubKind
deriving DecidableEq

/-- A live subscription registered with the host's subscription manager. -/
structure SubEntry where
  id : Nat
  kind : SubKind

/-- A message published through `app.handleMessage`. -/
inductive PubMsg where
  | initialMob (position : JVal) (time : Int)
  | clearedNav
  | mobDeltaMsg (vesselPosition : JVal)

/-- The mutable state of the plugin closure together with the host-visible
effects: `mobNotification`, `onStop`, `track`, `plugin.unsubscribes`, the log
of `app.handleMessage` calls, and the host's registry of still-active
subscription handles. -/
structure SysState where
  mobNotification : JVal
  onStop : List Nat
  track : List TrackSample
  published : List PubMsg
  unsubscribes : List Nat
  activeSubs : List SubEntry
  nextId : Nat

/-- Calling the unsubscribe handle of each id in `ids`: each call removes that
subscription from the host's registry. -/
def cancelIds (subs : List SubEntry) (ids : List Nat) : List SubEntry :=
  ids.foldl (fun acc sid => acc.filter (fun s => s.id != sid)) subs

/-- The function `stopWatchingPosition`: cancel the handles in `onStop`, empty it,
clear `track`, publish the all-null cleared delta. -/
def stopWatchingPosition (st : SysState) : SysState :=
  { st with
    activeSubs := cancelIds st.activeSubs st.onStop,
    onStop := [],
    track := [],
    published := st.published ++ [PubMsg.clearedNav] }

/-- The function `startWatchingPosition`: no-op when `onStop` is nonempty; otherwise publish
the initial document (`mobNotification.data.position`, `Date.now()`), clear the
track, and subscribe to the position feed, storing the handle in `onStop`.
The access `mobNotification.data.position` can raise a `TypeError`. -/
def startWatchingPosition (st : SysState) (now : Int) : Except Unit SysState :=
  if 0 < st.onStop.length then .ok st
  else do
    let dataV ← getProp st.mobNotification "data"
    let posV ← getProp dataV "position"
    let sid := st.nextId
    .ok { st with
          published := st.published ++ [PubMsg.initialMob posV now],
          track := [],
          onStop := st.onStop ++ [sid],
          activeSubs := st.activeSubs ++ [⟨sid, .position⟩],
          nextId := sid + 1 }

/-- The two source variants of the notification handler. -/
inductive Variant where
  | indexJs : Variant
  | part0 : Variant

/-- The first guard of the notification handler:
`!mobNotification && "state" in vp.value && vp.value.state === "emergency"`,
with JavaScript short-circuiting and the possible `TypeError` of `in`. -/
def condEmergency (mob v : JVal) : Except Unit Bool :=
  if truthy mob then .ok false
  else do
    let hs ← hasProp v "state"
    if hs then do
      let sv ← getProp v "state"
      .ok (isStr sv "emergency")
    else .ok false

/-- The guard of the "normal" branch.  The `index.js` variant reads
`mobNotification && "state" in vp.value && vp.value.state === "normal"`;
the unnamed variant omits the `mobNotification` conjunct. -/
def condNormal : Variant → JVal → JVal → Except Unit Bool
  | .indexJs, mob, v =>
    if truthy mob then do
      let hs ← hasProp v "state"
      if hs then do
        let sv ← getProp v "state"
        .ok (isStr sv "normal")
      else .ok false
    else .ok false
  | .part0, _, v => do
    let hs ← hasProp v "state"
    if hs then do
      let sv ← getProp v "state"
      .ok (isStr sv "normal")
    else .ok false

/-- A `{ path, value }` element of a delta's `values` array. -/
structure NotifVP where
  path : String
  value : JVal

/-- One element of a delta's `updates` array. -/
structure UpdateA where
  values : Option (List NotifVP)

/-- An inbound delta `{ updates: [...] }`. -/
structure DeltaA where
  updates : Option (List UpdateA)

/-- Processing of one `{ path, value }` pair by the notification handler. -/
def processNotifVP (var : Variant) (now : Int) (st : SysState) (vp : NotifVP) :
    Except Unit SysState :=
  if vp.path = "notifications.mob" then do
    let ce ← condEmergency st.mobNotification vp.value
    if ce then
      startWatchingPosition { st with mobNotification := vp.value } now
    else do
      let cn ← condNormal var st.mobNotification vp.value
      if cn then
        .ok { stopWatchingPosition st with mobNotification := .jnull }
      else .ok st
  else .ok st

/-- The `forEach` over one update's `values` array; a raised `TypeError`
aborts the loop. -/
def processNotifUpdate (var : Variant) (now : Int) (st : SysState) (u : UpdateA) :
    Except Unit SysState :=
  match u.values with
  | some vs => vs.foldlM (processNotifVP var now) st
  | none => .ok st

/-- The whole notification delta callback. -/
def processNotifDelta (var : Variant) (now : Int) (st : SysState) (d : DeltaA) :
    Except Unit SysState :=
  match d.updates with
  | some us => us.foldlM (processNotifUpdate var now) st
  | none => .ok st

/-- The position delta callback body of the `index.js` variant for one
`{ path, value }` pair: publish `getMOBDelta(app, vesselPosition)` and offer
the sample to the track buffer. -/
def handlePositionVP (now : Int) (st : SysState) (vp : NotifVP) : SysState :=
  if vp.path = "navigation.position" then
    let st1 := { st with published := st.published ++ [PubMsg.mobDeltaMsg vp.value] }
    { st1 with track := recordSample trackCapacityIndex st1.track vp.value now }
  else st

/-- The whole position delta callback of the `index.js` variant. -/
def processPositionDelta (now : Int) (st : SysState) (d : DeltaA) : SysState :=
  match d.updates with
  | some us => us.foldl (fun s u =>
      match u.values with
      | some vs => vs.foldl (handlePositionVP now) s
      | none => s) st
  | none => st

/-- A position delta delivered by the host to subscription handle `sid`. -/
structure PosEvent where
  sid : Nat
  delta : DeltaA
  now : Int

/-- Host-side delivery: the position callback runs only while its subscription
handle is still registered as active. -/
def deliverPosition (st : SysState) (e : PosEvent) : SysState :=
  if st.activeSubs.any (fun s => s.id == e.sid && s.kind == SubKind.position) then
    processPositionDelta e.now st e.delta
  else st

/-- The function `plugin.start`: subscribe to `notifications.mob`, storing the handle in
`plugin.unsubscribes`. -/
def pluginStart (st : SysState) : SysState :=
  { st with
    unsubscribes := st.unsubscribes ++ [st.nextId],
    activeSubs := st.activeSubs ++ [⟨st.nextId, .notif⟩],
    nextId := st.nextId + 1 }

/-- The function `plugin.stop`: cancel and empty the handles stored in
`plugin.unsubscribes`; nothing else is touched. -/
def pluginStop (st : SysState) : SysState :=
  { st with
    activeSubs := cancelIds st.activeSubs st.unsubscribes,
    unsubscribes := [] }

/-- The plugin state at module load. -/
def initState : SysState :=
  { mobNotification := .jnull, onStop := [], track := [], published := [],
    unsubscribes := [], activeSubs := [], nextId := 0 }

-- end of state-machine embedding

namespace Geo

/-- A geographic position in decimal degrees. -/
structure GeoPos where
  latitude : ℝ
  longitude : ℝ

/-- The conversion `radsToDeg`: `(radians * 180) / Math.PI`. -/
noncomputable def radsToDeg (radians : ℝ) : ℝ := radians * 180 / Real.pi

/-- The conversion `degsToRad`: `degrees * (Math.PI / 180.0)`. -/
noncomputable def degsToRad (degrees : ℝ) : ℝ := degrees * (Real.pi / 180)

/-- Two-argument arctangent, as used by the geodesy formulas. -/
noncomputable def atan2 (y x : ℝ) : ℝ := Complex.arg ⟨x, y⟩

/-- Earth radius in meters used by the geographic library. -/
noncomputable def earthRadius : ℝ := 6378137

/-- Modelled from the spec: `geolib.getDistance` (the geographic library is an
external dependency, not part of `src/`) — the geodesic distance in meters
between two points, spherical law of cosines, rounded to the requested
accuracy. -/
noncomputable def getDistance (p1 p2 : GeoPos) (accuracy : ℝ) : ℝ :=
  let d :=
    Real.arccos
      (Real.sin (degsToRad p2.latitude) * Real.sin (degsToRad p1.latitude) +
        Real.cos (degsToRad p2.latitude) * Real.cos (degsToRad p1.latitude) *
          Real.cos (degsToRad p1.longitude - degsToRad p2.longitude)) *
      earthRadius
  (round (d / accuracy) : ℤ) * accuracy

/-- Modelled from the spec: `geolib.getRhumbLineBearing` (external library) —
the rhumb-line initial bearing from `p1` to `p2`, in degrees. -/
noncomputable def getRhumbLineBearing (p1 p2 : GeoPos) : ℝ :=
  let phi1 := degsToRad p1.latitude
  let phi2 := degsToRad p2.latitude
  let dLon := degsToRad (p2.longitude - p1.longitude)
  let dPsi := Real.log
    (Real.tan (Real.pi / 4 + phi2 / 2) / Real.tan (Real.pi / 4 + phi1 / 2))
  radsToDeg (atan2 dLon dPsi)

/-- Modelled from the spec: `geolib.computeDestinationPoint` (external
library) — the destination point reached from `p` travelling `distance`
meters along the initial `bearing` (degrees) on a spherical Earth. -/
noncomputable def computeDestinationPoint (p : GeoPos) (distance bearing : ℝ) : GeoPos :=
  let delta := distance / earthRadius
  let theta := degsToRad bearing
  let phi1 := degsToRad p.latitude
  let lambda1 := degsToRad p.longitude
  let phi2 := Real.arcsin
    (Real.sin phi1 * Real.cos delta + Real.cos phi1 * Real.sin delta * Real.cos theta)
  let lambda2 := lambda1 +
    atan2 (Real.sin theta * Real.sin delta * Real.cos phi1)
      (Real.cos delta - Real.sin phi1 * Real.sin phi2)
  ⟨radsToDeg phi2, radsToDeg lambda2⟩

/-- The function `calc_distance`: distance between two points with accuracy `0.1`. -/
noncomputable def calc_distance (lat1 lon1 lat2 lon2 : ℝ) : ℝ :=
  getDistance ⟨lat1, lon1⟩ ⟨lat2, lon2⟩ (1 / 10)

/-- The function `calc_position_from`: destination from `position` along `heading`
(radians, converted to degrees) at `distance` meters. -/
noncomputable def calc_position_from (position : GeoPos) (heading distance : ℝ) : GeoPos :=
  computeDestinationPoint position distance (radsToDeg heading)

/-- The function `computeBowLocation`: when the heading is defined and
`sensors.gps.fromBow.value` is defined, project the position forward along the
heading by that offset; otherwise return the position unmodified. -/
noncomputable def computeBowLocation (gpsDist : Option ℝ) (position : GeoPos)
    (heading : Option ℝ) : GeoPos :=
  match heading with
  | none => position
  | some h =>
    match gpsDist with
    | none => position
    | some d => calc_position_from position h d

/-- A value published in a navigation delta: `null`, a number, or a position. -/
inductive NavVal where
  | vnull : NavVal
  | vnum (x : ℝ) : NavVal
  | vpos (p : GeoPos) : NavVal

/-- A `{ path, value }` pair of an outbound navigation delta. -/
structure NavPV where
  path : String
  value : NavVal

/-- An outbound delta `{ updates: [ { values: [...] } ] }`. -/
structure NavDelta where
  values : List NavPV

/-- The environment read through `app.getSelfPath` while computing a MOB
delta: the stored MOB position and time, the true heading, and the
bow-to-GPS-sensor offset distance. -/
structure SelfPaths where
  mobPositionVal : Option GeoPos
  mobTimeVal : ℝ
  headingTrueVal : Option ℝ
  gpsFromBowVal : Option ℝ

/-- The five-field all-null "cleared" values list. -/
def clearedValues : List NavPV :=
  [⟨"navigation.mob.position", .vnull⟩,
   ⟨"navigation.mob.time", .vnull⟩,
   ⟨"navigation.mob.elapsed", .vnull⟩,
   ⟨"navigation.mob.distance", .vnull⟩,
   ⟨"navigation.mob.bearingTrue", .vnull⟩]

/-- The function `getMOBDelta`: when both the vessel position and the stored MOB position
are available, compute elapsed, distance and bearing from the bow-corrected
position; otherwise return the all-null cleared delta. -/
noncomputable def getMOBDelta (env : SelfPaths) (now : ℝ) (position : Option GeoPos) :
    NavDelta :=
  match position, env.mobPositionVal with
  | some pos, some mobPosition =>
    let bowPosition := computeBowLocation env.gpsFromBowVal pos env.headingTrueVal
    let bearing := degsToRad (getRhumbLineBearing bowPosition mobPosition)
    let distance := calc_distance bowPosition.latitude bowPosition.longitude
      mobPosition.latitude mobPosition.longitude
    ⟨[⟨"navigation.mob.elapsed", .vnum ((now - env.mobTimeVal) / 1000)⟩,
      ⟨"navigation.mob.distance", .vnum distance⟩,
      ⟨"navigation.mob.bearingTrue", .vnum bearing⟩]⟩
  | _, _ => ⟨clearedValues⟩

end Geo

end Mob

namespace Mob

theorem exceptBind_ok {α β : Type} (a : α) (f : α → Except Unit β) :
    (Except.ok a >>= f) = f a := rfl

theorem exceptBind_error {α β : Type} (f : α → Except Unit β) :
    ((Except.error () : Except Unit α) >>= f) = .error () := rfl

/-- A state holding an active MobEvent and a live position subscription. -/
def stActive : SysState :=
  { mobNotification := .jobj [("state", .jstr "emergency"),
      ("data", .jobj [("position", .jobj [("latitude", .jnum 10), ("longitude", .jnum 20)])])],
    onStop := [1], track := [], published := [],
    unsubscribes := [0], activeSubs := [⟨0, .notif⟩, ⟨1, .position⟩], nextId := 2 }

theorem condEmergency_of_truthy {mob v : JVal} (h : truthy mob = true) :
    condEmergency mob v = .ok false := by
  simp [condEmergency, h]

theorem condEmergency_of_state {mob : JVal} {fs : List (String × JVal)} {sv : JVal}
    (h : truthy mob = false) (hs : lookupField fs "state" = some sv) :
    condEmergency mob (.jobj fs) = .ok (isStr sv "emergency") := by
  simp [condEmergency, h, hasProp, getProp, hs, exceptBind_ok]

theorem condNormal_of_state {var : Variant} {mob : JVal} {fs : List (String × JVal)}
    {sv : JVal} (hs : lookupField fs "state" = some sv) :
    condNormal var mob (.jobj fs) =
      .ok (match var with
           | .indexJs => truthy mob && isStr sv "normal"
           | .part0 => isStr sv "normal") := by
  cases var <;> cases hmob : truthy mob <;>
    simp [condNormal, hmob, hasProp, getProp, hs, exceptBind_ok]

theorem startWatchingPosition_onStop {st st' : SysState} {now : Int}
    (h : startWatchingPosition st now = .ok st') :
    st'.onStop = st.onStop ∨ (st.onStop = [] ∧ st'.onStop = [st.nextId]) := by
  unfold startWatchingPosition at h
  split at h
  · cases h
    exact Or.inl rfl
  · next hlen =>
    have hnil : st.onStop = [] := by
      cases hl : st.onStop with
      | nil => rfl
      | cons a l => rw [hl] at hlen; simp at hlen
    cases hd : getProp st.mobNotification "data" with
    | error e => rw [hd, exceptBind_error] at h; cases h
    | ok dataV =>
      rw [hd, exceptBind_ok] at h
      cases hp : getProp dataV "position" with
      | error e => rw [hp, exceptBind_error] at h; cases h
      | ok posV =>
        rw [hp, exceptBind_ok] at h
        cases h
        exact Or.inr ⟨hnil, by simp [hnil]⟩

theorem processNotifVP_onStop_le {var : Variant} {now : Int} {st st' : SysState}
    {vp : NotifVP} (h0 : st.onStop.length ≤ 1)
    (h : processNotifVP var now st vp = .ok st') :
    st'.onStop.length ≤ 1 := by
  unfold processNotifVP at h
  split at h
  · cases hce : condEmergency st.mobNotification vp.value with
    | error e => rw [hce, exceptBind_error] at h; cases h
    | ok ce =>
      rw [hce, exceptBind_ok] at h
      cases ce with
      | true =>
        simp only [if_pos] at h
        rcases startWatchingPosition_onStop h with heq | ⟨_, heq⟩
        · rw [heq]; exact h0
        · rw [heq]; simp
      | false =>
        simp only [Bool.false_eq_true, if_neg] at h
        cases hcn : condNormal var st.mobNotification vp.value with
        | error e => rw [hcn, exceptBind_error] at h; cases h
        | ok cn =>
          rw [hcn, exceptBind_ok] at h
          cases cn with
          | true => simp only [if_pos] at h; cases h; simp [stopWatchingPosition]
          | false => simp only [Bool.false_eq_true, if_neg] at h; cases h; exact h0
  · cases h
    exact h0

theorem foldlM_VP_onStop_le {var : Variant} {now : Int} :
    ∀ (vs : List NotifVP) (st st' : SysState), st.onStop.length ≤ 1 →
      List.foldlM (processNotifVP var now) st vs = .ok st' → st'.onStop.length ≤ 1 := by
  intro vs
  induction vs with
  | nil => intro st st' h0 h; cases h; exact h0
  | cons v vs ih =>
    intro st st' h0 h
    rw [List.foldlM_cons] at h
    cases hv : processNotifVP var now st v with
    | error e => rw [hv, exceptBind_error] at h; cases h
    | ok mid =>
      rw [hv, exceptBind_ok] at h
      exact ih mid st' (processNotifVP_onStop_le h0 hv) h

theorem processNotifUpdate_onStop_le {var : Variant} {now : Int} {st st' : SysState}
    {u : UpdateA} (h0 : st.onStop.length ≤ 1)
    (h : processNotifUpdate var now st u = .ok st') : st'.onStop.length ≤ 1 := by
  unfold processNotifUpdate at h
  split at h
  · exact foldlM_VP_onStop_le _ st st' h0 h
  · cases h; exact h0

theorem foldlM_Update_onStop_le {var : Variant} {now : Int} :
    ∀ (us : List UpdateA) (st st' : SysState), st.onStop.length ≤ 1 →
      List.foldlM (processNotifUpdate var now) st us = .ok st' →
      st'.onStop.length ≤ 1 := by
  intro us
  induction us with
  | nil => intro st st' h0 h; cases h; exact h0
  | cons u us ih =>
    intro st st' h0 h
    rw [List.foldlM_cons] at h
    cases hu : processNotifUpdate var now st u with
    | error e => rw [hu, exceptBind_error] at h; cases h
    | ok mid =>
      rw [hu, exceptBind_ok] at h
      exact ih mid st' (processNotifUpdate_onStop_le h0 hu) h

theorem processNotifDelta_onStop_le (var : Variant) (now : Int) (st st' : SysState)
    (d : DeltaA) (h0 : st.onStop.length ≤ 1)
    (h : processNotifDelta var now st d = .ok st') : st'.onStop.length ≤ 1 := by
  unfold processNotifDelta at h
  split at h
  · exact foldlM_Update_onStop_le _ st st' h0 h
  · cases h; exact h0

/-- C1: a notification value with `state == "emergency"` arriving while a
MobEvent is already active causes no transition and no side effect — the whole
state (`mobNotification`, the `onStop` subscription handles, the track buffer,
the publish log, the host's subscription registry) is returned unchanged, so
the position watch is not started a second time; and over any notification
delta, in both source variants, the handler keeps at most one position
subscription handle in `onStop`, so at most one MobEvent/position watch is
ever active. -/
theorem mob_second_emergency_noop (var : Variant) (now : Int) (st : SysState)
    (fs : List (String × JVal))
    (hmob : truthy st.mobNotification = true)
    (hstate : lookupField fs "state" = some (.jstr "emergency")) :
    processNotifVP var now st ⟨"notifications.mob", .jobj fs⟩ = .ok st ∧
    (∀ (st₀ st₁ : SysState) (d : DeltaA), st₀.onStop.length ≤ 1 →
      processNotifDelta var now st₀ d = .ok st₁ → st₁.onStop.length ≤ 1) := by
  constructor
  · cases var <;>
      simp [processNotifVP, condEmergency_of_truthy hmob,
        condNormal_of_state hstate,
        exceptBind_ok, isStr, hmob]
  · intro st₀ st₁ d h0 h1
    exact processNotifDelta_onStop_le var now st₀ st₁ d h0 h1

end Mob

namespace Mob

/-- Witness: the C1 no-op at a concrete active state, and the handle bound at
a concrete delta. -/
theorem mob_second_emergency_noop_witness :
    processNotifVP .indexJs 0 stActive
      ⟨"notifications.mob", .jobj [("state", .jstr "emergency")]⟩ = .ok stActive :=
  (mob_second_emergency_noop .indexJs 0 stActive [("state", .jstr "emergency")]
    rfl rfl).1

theorem condEmergency_of_noState {mob : JVal} {fs : List (String × JVal)}
    (h : truthy mob = false) (hs : lookupField fs "state" = none) :
    condEmergency mob (.jobj fs) = .ok false := by
  simp [condEmergency, h, hasProp, hs, exceptBind_ok]

theorem condNormal_of_noState {var : Variant} {mob : JVal} {fs : List (String × JVal)}
    (hs : lookupField fs "state" = none) :
    condNormal var mob (.jobj fs) = .ok false := by
  cases var <;> cases hmob : truthy mob <;>
    simp [condNormal, hmob, hasProp, hs, exceptBind_ok]

/-- C2 (amended): a notification value that is no activation and no valid
deactivation is ignored with no transition and no side effect, except that in
the unnamed variant the "normal" branch is not guarded by an active MobEvent:
a `state == "normal"` value arriving while Idle runs `stopWatchingPosition`,
which publishes the all-null cleared delta (the MobEvent stays absent, no
handle is in `onStop` to cancel, and the track buffer is cleared).  In the
`index.js` variant a "normal" while Idle is a strict no-op; in both variants a
value missing `state` or carrying an unrecognized `state` is a strict no-op. -/
theorem notif_ignored_cases (var : Variant) (now : Int) (st : SysState)
    (fs : List (String × JVal)) :
    (truthy st.mobNotification = false →
      lookupField fs "state" = some (.jstr "normal") →
      processNotifVP .indexJs now st ⟨"notifications.mob", .jobj fs⟩ = .ok st) ∧
    (lookupField fs "state" = none →
      processNotifVP var now st ⟨"notifications.mob", .jobj fs⟩ = .ok st) ∧
    (∀ sv : JVal, lookupField fs "state" = some sv → isStr sv "emergency" = false →
      isStr sv "normal" = false →
      processNotifVP var now st ⟨"notifications.mob", .jobj fs⟩ = .ok st) ∧
    (truthy st.mobNotification = false →
      lookupField fs "state" = some (.jstr "normal") →
      processNotifVP .part0 now st ⟨"notifications.mob", .jobj fs⟩ =
        .ok { stopWatchingPosition st with mobNotification := .jnull }) := by
  refine ⟨?_, ?_, ?_, ?_⟩
  · intro hmob hs
    simp [processNotifVP, condEmergency_of_state hmob hs, condNormal_of_state hs,
      exceptBind_ok, isStr, hmob]
  · intro hs
    cases hmob : truthy st.mobNotification
    · cases var <;>
        simp [processNotifVP, condEmergency_of_noState hmob hs,
          condNormal_of_noState hs, exceptBind_ok]
    · cases var <;>
        simp [processNotifVP, condEmergency_of_truthy hmob,
          condNormal_of_noState hs, exceptBind_ok]
  · intro sv hs hem hno
    cases hmob : truthy st.mobNotification
    · cases var <;>
        simp [processNotifVP, condEmergency_of_state hmob hs,
          condNormal_of_state hs, exceptBind_ok, hem, hno]
    · cases var <;>
        simp [processNotifVP, condEmergency_of_truthy hmob,
          condNormal_of_state hs, exceptBind_ok, hem, hno]
  · intro hmob hs
    simp [processNotifVP, condEmergency_of_state hmob hs, condNormal_of_state hs,
      exceptBind_ok, isStr, hmob]

/-- C2 counterexample: in the unnamed variant, a `state == "normal"` value
arriving while no MobEvent is active (Idle) is not side-effect free — the
handler publishes the all-null cleared delta to the host document store, so
the resulting state differs from the incoming one. -/
theorem notif_normal_idle_publishes_cex :
    processNotifVP .part0 0 initState
      ⟨"notifications.mob", .jobj [("state", .jstr "normal")]⟩ =
      .ok { initState with published := [PubMsg.clearedNav] } ∧
    { initState with published := [PubMsg.clearedNav] } ≠ initState := by
  constructor
  · rfl
  · intro h
    have h2 := congrArg SysState.published h
    simp [initState] at h2

/-- Witness: C2's no-op cases at concrete states. -/
theorem notif_ignored_cases_witness :
    processNotifVP .indexJs 0 initState
      ⟨"notifications.mob", .jobj [("state", .jstr "normal")]⟩ = .ok initState ∧
    processNotifVP .part0 0 stActive ⟨"notifications.mob", .jobj []⟩ = .ok stActive ∧
    processNotifVP .indexJs 0 stActive
      ⟨"notifications.mob", .jobj [("state", .jstr "alarm")]⟩ = .ok stActive :=
  ⟨(notif_ignored_cases .part0 0 initState [("state", .jstr "normal")]).1 rfl rfl,
   (notif_ignored_cases .part0 0 stActive []).2.1 rfl,
   (notif_ignored_cases .indexJs 0 stActive [("state", .jstr "alarm")]).2.2.1
     (.jstr "alarm") rfl rfl rfl⟩

/-- C3 (code refutation): the notification handler does not silently ignore
malformed values — a delta whose `notifications.mob` value is `null` makes
`"state" in vp.value` raise a TypeError in both variants, and an "emergency"
value lacking `data.position` makes `mobNotification.data.position` raise
inside `startWatchingPosition`; the exception propagates out of the handler. -/
theorem notif_handler_raises_on_malformed :
    processNotifDelta .indexJs 0 initState
      ⟨some [⟨some [⟨"notifications.mob", .jnull⟩]⟩]⟩ = .error () ∧
    processNotifDelta .part0 0 initState
      ⟨some [⟨some [⟨"notifications.mob", .jnull⟩]⟩]⟩ = .error () ∧
    processNotifVP .indexJs 0 initState
      ⟨"notifications.mob", .jobj [("state", .jstr "emergency")]⟩ = .error () :=
  ⟨rfl, rfl, rfl⟩

end Mob

namespace Mob

/-- C4 (amended): a sample offered at `now` is appended iff the buffer is
empty or `now` minus the time of the last stored sample is strictly greater
than 30 seconds (the source compares `lastSample.time < now - 30 * 1000`);
otherwise the buffer is unchanged.  In particular samples offered at
t = 0s, 5s, 31s, 35s leave exactly the samples at 0s and 31s, in order. -/
theorem recordSample_throttle (cap : Nat) (tr : List TrackSample) (pos : JVal)
    (now : Int) (hlen : tr.length < cap) :
    (tr = [] → recordSample cap tr pos now = [⟨pos, now⟩]) ∧
    (∀ s : TrackSample, tr.getLast? = some s →
      (now - s.time > 30 * 1000 → recordSample cap tr pos now = tr ++ [⟨pos, now⟩]) ∧
      (now - s.time ≤ 30 * 1000 → recordSample cap tr pos now = tr)) ∧
    ([(0 : Int), 5000, 31000, 35000].foldl
        (fun t n => recordSample trackCapacityIndex t pos n) [] =
      [⟨pos, 0⟩, ⟨pos, 31000⟩]) := by
  refine ⟨?_, ?_, ?_⟩
  · intro he
    subst he
    simp only [recordSample, shouldRecord, pushTrack]
    norm_num
    omega
  · intro s hs
    have hne : tr ≠ [] := by
      intro h0
      rw [h0] at hs
      simp at hs
    constructor
    · intro hgt
      have hrec : shouldRecord tr now = true := by
        simp [shouldRecord, hs]
        right
        omega
      simp only [recordSample, hrec, if_pos, pushTrack]
      rw [if_neg (by simp; omega)]
    · intro hle
      have hrec : shouldRecord tr now = false := by
        simp [shouldRecord, hs]
        exact ⟨hne, by omega⟩
      simp [recordSample, hrec]
  · norm_num [recordSample, shouldRecord, pushTrack, trackCapacityIndex]

/-- C4 counterexample: a sample offered exactly 30 seconds after the last
stored sample satisfies the claim's "at least 30 seconds" condition, yet the
code drops it — the comparison in the source is strict. -/
theorem recordSample_boundary_cex :
    ((30000 : Int) - (⟨JVal.jnull, 0⟩ : TrackSample).time ≥ 30 * 1000) ∧
    recordSample trackCapacityIndex [⟨JVal.jnull, 0⟩] JVal.jnull 30000 =
      [⟨JVal.jnull, 0⟩] := by
  exact ⟨by norm_num, rfl⟩

/-- Witness: the amended C4 at concrete inputs — append on empty, append
after 31s, drop after 5s. -/
theorem recordSample_throttle_witness :
    recordSample 2 [] JVal.jnull 0 = [⟨JVal.jnull, 0⟩] ∧
    recordSample 2 [⟨JVal.jnull, 0⟩] JVal.jnull 31000 =
      [⟨JVal.jnull, 0⟩, ⟨JVal.jnull, 31000⟩] ∧
    recordSample 2 [⟨JVal.jnull, 0⟩] JVal.jnull 5000 = [⟨JVal.jnull, 0⟩] :=
  ⟨(recordSample_throttle 2 [] JVal.jnull 0 (by norm_num)).1 rfl,
   ((recordSample_throttle 2 [⟨JVal.jnull, 0⟩] JVal.jnull 31000
      (by norm_num)).2.1 ⟨JVal.jnull, 0⟩ rfl).1 (by norm_num),
   ((recordSample_throttle 2 [⟨JVal.jnull, 0⟩] JVal.jnull 5000
      (by norm_num)).2.1 ⟨JVal.jnull, 0⟩ rfl).2 (by norm_num)⟩

theorem pushTrack_eq_drop (cap : Nat) (tr : List TrackSample) (s : TrackSample)
    (h : tr.length ≤ cap) :
    pushTrack cap tr s = (tr ++ [s]).drop (tr.length + 1 - cap) := by
  simp only [pushTrack]
  rcases Nat.lt_or_ge tr.length cap with hlt | hge
  · rw [if_neg (by simp only [List.length_append, List.length_cons,
      List.length_nil]; omega)]
    have h0 : tr.length + 1 - cap = 0 := by omega
    rw [h0, List.drop_zero]
  · have hcap : tr.length = cap := le_antisymm h hge
    rw [if_pos (by simp only [List.length_append, List.length_cons,
      List.length_nil]; omega)]
    have h1 : tr.length + 1 - cap = 1 := by omega
    rw [h1, List.drop_one]

theorem pushTrack_length_le (cap : Nat) (tr : List TrackSample) (s : TrackSample)
    (h : tr.length ≤ cap) : (pushTrack cap tr s).length ≤ cap := by
  rw [pushTrack_eq_drop cap tr s h]
  simp only [List.length_drop, List.length_append, List.length_cons, List.length_nil]
  omega

theorem foldl_pushTrack (cap : Nat) :
    ∀ (L : List TrackSample) (tr : List TrackSample), tr.length ≤ cap →
      L.foldl (pushTrack cap) tr = (tr ++ L).drop (tr.length + L.length - cap) := by
  intro L
  induction L with
  | nil =>
    intro tr h
    have h0 : tr.length + ([] : List TrackSample).length - cap = 0 := by
      simp only [List.length_nil, Nat.add_zero]
      omega
    rw [List.foldl_nil, List.append_nil, h0, List.drop_zero]
  | cons s L ih =>
    intro tr h
    rw [List.foldl_cons, ih _ (pushTrack_length_le cap tr s h),
      pushTrack_eq_drop cap tr s h]
    rcases Nat.lt_or_ge tr.length cap with hlt | hge
    · have h0 : tr.length + 1 - cap = 0 := by omega
      rw [h0, List.drop_zero, List.append_assoc, List.singleton_append]
      congr 1
      simp only [List.length_append, List.length_cons, List.length_nil]
      omega
    · have hcap : tr.length = cap := le_antisymm h hge
      have h1 : tr.length + 1 - cap = 1 := by omega
      have hlen : ((tr ++ [s]).drop 1).length = tr.length := by
        simp only [List.length_drop, List.length_append, List.length_cons,
          List.length_nil]
        omega
      rw [h1, hlen,
        ← List.drop_append_of_le_length
          (show (1 : Nat) ≤ (tr ++ [s]).length by
            simp only [List.length_append, List.length_cons, List.length_nil]
            omega),
        List.drop_drop, List.append_assoc, List.singleton_append]
      congr 1
      simp only [List.length_cons]
      omega

/-- C5: for any sequence of eligible (non-throttled) samples, the append
operation of the position handler never grows the buffer past the capacity,
and after `cap + 1` eligible samples starting from an empty buffer the buffer
holds exactly the most recent `cap` samples in order, the oldest evicted.
`recordSample` performs exactly this append whenever the throttle admits the
sample. -/
theorem track_capacity_bound (cap : Nat) (tr : List TrackSample) (s : TrackSample)
    (h : tr.length ≤ cap) :
    (pushTrack cap tr s).length ≤ cap ∧
    (∀ (pos : JVal) (now : Int), shouldRecord tr now = true →
      recordSample cap tr pos now = pushTrack cap tr ⟨pos, now⟩) ∧
    (∀ L : List TrackSample, L.length = cap + 1 →
      L.foldl (pushTrack cap) [] = L.drop 1) := by
  refine ⟨pushTrack_length_le cap tr s h, ?_, ?_⟩
  · intro pos now hrec
    simp [recordSample, hrec]
  · intro L hL
    rw [foldl_pushTrack cap L [] (by simp)]
    simp [hL]

/-- Witness: C5 at capacity 2 with three concrete eligible samples. -/
theorem track_capacity_bound_witness :
    (pushTrack 2 [⟨JVal.jnull, 0⟩, ⟨JVal.jnull, 31000⟩] ⟨JVal.jnull, 62000⟩).length ≤ 2 ∧
    ([⟨JVal.jnull, 0⟩, ⟨JVal.jnull, 31000⟩, ⟨JVal.jnull, 62000⟩] :
        List TrackSample).foldl (pushTrack 2) [] =
      [⟨JVal.jnull, 31000⟩, ⟨JVal.jnull, 62000⟩] :=
  ⟨(track_capacity_bound 2 [⟨JVal.jnull, 0⟩, ⟨JVal.jnull, 31000⟩]
      ⟨JVal.jnull, 62000⟩ (by norm_num)).1,
   (track_capacity_bound 2 [⟨JVal.jnull, 0⟩, ⟨JVal.jnull, 31000⟩]
      ⟨JVal.jnull, 62000⟩ (by norm_num)).2.2
     [⟨JVal.jnull, 0⟩, ⟨JVal.jnull, 31000⟩, ⟨JVal.jnull, 62000⟩] rfl⟩

end Mob

namespace Mob

theorem mem_cancelIds : ∀ (ids : List Nat) (subs : List SubEntry) (e : SubEntry),
    e ∈ cancelIds subs ids → e ∈ subs ∧ e.id ∉ ids := by
  intro ids
  induction ids with
  | nil => intro subs e h; exact ⟨h, by simp⟩
  | cons i ids ih =>
    intro subs e h
    simp only [cancelIds, List.foldl_cons] at h
    have h2 := ih (subs.filter (fun s => s.id != i)) e h
    rw [List.mem_filter] at h2
    refine ⟨h2.1.1, ?_⟩
    simp only [List.mem_cons, not_or]
    refine ⟨?_, h2.2⟩
    have := h2.1.2
    simpa using this

theorem mem_cancelIds_of_not : ∀ (ids : List Nat) (subs : List SubEntry) (e : SubEntry),
    e ∈ subs → e.id ∉ ids → e ∈ cancelIds subs ids := by
  intro ids
  induction ids with
  | nil => intro subs e h _; exact h
  | cons i ids ih =>
    intro subs e h hn
    simp only [List.mem_cons, not_or] at hn
    simp only [cancelIds, List.foldl_cons]
    exact ih _ e (List.mem_filter.mpr ⟨h, by simpa using hn.1⟩) hn.2

theorem deliverPosition_of_cancelled {st : SysState} {ev : PosEvent}
    (h : ∀ e ∈ st.activeSubs, e.id ≠ ev.sid) : deliverPosition st ev = st := by
  have hany : st.activeSubs.any
      (fun s => s.id == ev.sid && s.kind == SubKind.position) = false := by
    rw [List.any_eq_false]
    intro s hs
    simp only [Bool.and_eq_true, beq_iff_eq, not_and]
    intro h1
    exact absurd h1 (h s hs)
  simp [deliverPosition, hany]

theorem foldl_deliverPosition_const {st : SysState} {ids : List Nat}
    (hq : ∀ ev : PosEvent, ev.sid ∈ ids → deliverPosition st ev = st) :
    ∀ evs : List PosEvent, (∀ ev ∈ evs, ev.sid ∈ ids) →
      evs.foldl deliverPosition st = st := by
  intro evs
  induction evs with
  | nil => intro _; rfl
  | cons ev evs ih =>
    intro hevs
    rw [List.foldl_cons, hq ev (hevs ev (by simp))]
    exact ih (fun e he => hevs e (by simp [he]))

/-- C7: after `stopWatchingPosition` returns, the stored position-subscription
handles are cancelled and `onStop` emptied synchronously, the track buffer is
cleared, and any number of stray position deltas delivered to the cancelled
handles leave the state unchanged — no further publish call and no track
growth. -/
theorem stopWatching_no_late_effects (st : SysState) :
    (stopWatchingPosition st).onStop = [] ∧
    (stopWatchingPosition st).track = [] ∧
    (∀ e ∈ (stopWatchingPosition st).activeSubs, e.id ∉ st.onStop) ∧
    (∀ evs : List PosEvent, (∀ ev ∈ evs, ev.sid ∈ st.onStop) →
      evs.foldl deliverPosition (stopWatchingPosition st) =
        stopWatchingPosition st) := by
  refine ⟨rfl, rfl, ?_, ?_⟩
  · intro e he
    exact (mem_cancelIds st.onStop st.activeSubs e he).2
  · intro evs hevs
    refine foldl_deliverPosition_const ?_ evs hevs
    intro ev hsid
    refine deliverPosition_of_cancelled ?_
    intro e he hid
    have h2 := (mem_cancelIds st.onStop st.activeSubs e he).2
    rw [hid] at h2
    exact h2 hsid

/-- Witness: C7 at a concrete tracking state, delivering one stray position
delta to the cancelled handle. -/
theorem stopWatching_no_late_effects_witness :
    (stopWatchingPosition stActive).onStop = [] ∧
    (stopWatchingPosition stActive).track = [] ∧
    ([⟨1, ⟨none⟩, 40000⟩] : List PosEvent).foldl deliverPosition
        (stopWatchingPosition stActive) = stopWatchingPosition stActive :=
  ⟨(stopWatching_no_late_effects stActive).1,
   (stopWatching_no_late_effects stActive).2.1,
   (stopWatching_no_late_effects stActive).2.2.2 [⟨1, ⟨none⟩, 40000⟩]
     (by intro ev hev; simp at hev; rw [hev]; simp [stActive])⟩

/-- C10: `plugin.stop` cancels and empties only the handles stored in
`plugin.unsubscribes`; `onStop`, the track buffer, the MobEvent and the
publish log are untouched, and any active subscription whose handle is not in
`plugin.unsubscribes` (such as the position subscription opened during an
emergency) remains active. -/
theorem pluginStop_frame (st : SysState) :
    (pluginStop st).onStop = st.onStop ∧
    (pluginStop st).track = st.track ∧
    (pluginStop st).mobNotification = st.mobNotification ∧
    (pluginStop st).published = st.published ∧
    (pluginStop st).unsubscribes = [] ∧
    (∀ e ∈ st.activeSubs, e.id ∉ st.unsubscribes → e ∈ (pluginStop st).activeSubs) := by
  refine ⟨rfl, rfl, rfl, rfl, rfl, ?_⟩
  intro e he hn
  exact mem_cancelIds_of_not st.unsubscribes st.activeSubs e he hn

/-- Witness: C10 at a concrete state with an active emergency — the position
subscription handle survives `plugin.stop` and the track buffer is retained. -/
theorem pluginStop_frame_witness :
    (pluginStop stActive).onStop = [1] ∧
    (pluginStop stActive).track = [] ∧
    (⟨1, SubKind.position⟩ : SubEntry) ∈ (pluginStop stActive).activeSubs :=
  ⟨(pluginStop_frame stActive).1,
   (pluginStop_frame stActive).2.1,
   (pluginStop_frame stActive).2.2.2.2.2 ⟨1, SubKind.position⟩
     (by simp [stActive]) (by simp [stActive])⟩

end Mob

namespace Mob

/-- C6: when the vessel position or the stored MOB target position is
unavailable (`null`/`undefined`), `getMOBDelta` returns the all-null cleared
delta — `navigation.mob.position`, `.time`, `.elapsed`, `.distance` and
`.bearingTrue` all null together — regardless of the other inputs. -/
theorem getMOBDelta_cleared_when_missing (env : Geo.SelfPaths) (now : ℝ)
    (position : Option Geo.GeoPos)
    (h : position = none ∨ env.mobPositionVal = none) :
    Geo.getMOBDelta env now position = ⟨Geo.clearedValues⟩ := by
  rcases h with h | h
  · subst h
    cases hm : env.mobPositionVal <;> simp [Geo.getMOBDelta, hm]
  · cases position <;> simp [Geo.getMOBDelta, h]

/-- An environment with no stored MOB position. -/
def envEmpty : Geo.SelfPaths := ⟨none, 0, none, none⟩

/-- Witness: C6 with the vessel position missing. -/
theorem getMOBDelta_cleared_when_missing_witness :
    Geo.getMOBDelta envEmpty 0 none = ⟨Geo.clearedValues⟩ :=
  getMOBDelta_cleared_when_missing envEmpty 0 none (Or.inl rfl)

/-- C8: when both the heading and the configured bow-to-GPS offset distance
are defined, `computeBowLocation` is the destination point projected forward
along the heading (radians converted to degrees) by the offset distance; when
either is undefined the vessel position is returned unmodified; and
`getMOBDelta` computes its distance and bearing from this corrected bow
position, not from the raw vessel position. -/
theorem computeBowLocation_spec (pos : Geo.GeoPos) (h d : ℝ)
    (gd hd : Option ℝ) :
    (Geo.computeBowLocation (some d) pos (some h) =
      Geo.computeDestinationPoint pos d (Geo.radsToDeg h)) ∧
    (Geo.computeBowLocation gd pos none = pos) ∧
    (Geo.computeBowLocation none pos hd = pos) ∧
    (∀ (env : Geo.SelfPaths) (now : ℝ) (mobPos : Geo.GeoPos),
      env.mobPositionVal = some mobPos →
      Geo.getMOBDelta env now (some pos) =
        ⟨[⟨"navigation.mob.elapsed", .vnum ((now - env.mobTimeVal) / 1000)⟩,
          ⟨"navigation.mob.distance", .vnum (Geo.calc_distance
            (Geo.computeBowLocation env.gpsFromBowVal pos env.headingTrueVal).latitude
            (Geo.computeBowLocation env.gpsFromBowVal pos env.headingTrueVal).longitude
            mobPos.latitude mobPos.longitude)⟩,
          ⟨"navigation.mob.bearingTrue", .vnum (Geo.degsToRad
            (Geo.getRhumbLineBearing
              (Geo.computeBowLocation env.gpsFromBowVal pos env.headingTrueVal)
              mobPos))⟩]⟩) := by
  refine ⟨rfl, rfl, ?_, ?_⟩
  · cases hd <;> rfl
  · intro env now mobPos hm
    simp [Geo.getMOBDelta, hm]

/-- An environment with a stored MOB position at the origin, a north heading
and a 5 m bow offset. -/
def envC8 : Geo.SelfPaths := ⟨some ⟨0, 0⟩, 0, some 0, some 5⟩

/-- Witness: C8 at concrete inputs. -/
theorem computeBowLocation_spec_witness :
    (Geo.computeBowLocation (some (5 : ℝ)) (⟨10, 20⟩ : Geo.GeoPos) (some (0 : ℝ)) =
      Geo.computeDestinationPoint ⟨10, 20⟩ 5 (Geo.radsToDeg 0)) ∧
    (Geo.computeBowLocation (some (5 : ℝ)) (⟨10, 20⟩ : Geo.GeoPos) none = ⟨10, 20⟩) ∧
    (Geo.getMOBDelta envC8 10000 (some ⟨10, 20⟩) =
      ⟨[⟨"navigation.mob.elapsed", .vnum ((10000 - envC8.mobTimeVal) / 1000)⟩,
        ⟨"navigation.mob.distance", .vnum (Geo.calc_distance
          (Geo.computeBowLocation envC8.gpsFromBowVal ⟨10, 20⟩ envC8.headingTrueVal).latitude
          (Geo.computeBowLocation envC8.gpsFromBowVal ⟨10, 20⟩ envC8.headingTrueVal).longitude
          ((⟨0, 0⟩ : Geo.GeoPos)).latitude ((⟨0, 0⟩ : Geo.GeoPos)).longitude)⟩,
        ⟨"navigation.mob.bearingTrue", .vnum (Geo.degsToRad
          (Geo.getRhumbLineBearing
            (Geo.computeBowLocation envC8.gpsFromBowVal ⟨10, 20⟩ envC8.headingTrueVal)
            ⟨0, 0⟩))⟩]⟩) :=
  ⟨(computeBowLocation_spec ⟨10, 20⟩ 0 5 (some 5) none).1,
   (computeBowLocation_spec ⟨10, 20⟩ 0 5 (some 5) none).2.1,
   (computeBowLocation_spec ⟨10, 20⟩ 0 5 (some 5) none).2.2.2 envC8 10000 ⟨0, 0⟩ rfl⟩

theorem getDistance_self (p : Geo.GeoPos) : Geo.getDistance p p (1 / 10) = 0 := by
  unfold Geo.getDistance
  have harg : Real.sin (Geo.degsToRad p.latitude) * Real.sin (Geo.degsToRad p.latitude) +
      Real.cos (Geo.degsToRad p.latitude) * Real.cos (Geo.degsToRad p.latitude) *
        Real.cos (Geo.degsToRad p.longitude - Geo.degsToRad p.longitude) = 1 := by
    rw [sub_self, Real.cos_zero, mul_one,
      ← Real.sin_sq_add_cos_sq (Geo.degsToRad p.latitude)]
    ring
  rw [harg, Real.arccos_one, zero_mul]
  simp

/-- C9: activating with MOB position P at t0 = 0 ms and computing the
navigation delta at t0 + 10s with vessel position equal to P (zero
displacement, no heading and no bow offset) yields a distance of 0 m and an
elapsed time of (now - mobTime) / 1000 = 10 s. -/
theorem mob_roundtrip_zero_displacement :
    Geo.getMOBDelta ⟨some ⟨10, 20⟩, 0, none, none⟩ 10000 (some ⟨10, 20⟩) =
      ⟨[⟨"navigation.mob.elapsed", .vnum 10⟩,
        ⟨"navigation.mob.distance", .vnum 0⟩,
        ⟨"navigation.mob.bearingTrue", .vnum (Geo.degsToRad
          (Geo.getRhumbLineBearing ⟨10, 20⟩ ⟨10, 20⟩))⟩]⟩ := by
  simp only [Geo.getMOBDelta, Geo.computeBowLocation, Geo.calc_distance]
  norm_num
  exact getDistance_self ⟨10, 20⟩

end Mob
